import Mathlib

/-!
Verification development for the firefox-session-ui application.

The selection model (`GenerateOptions` and
`TabGroupList::change_selected_tab_group`), the `Command` message handler of
the main view, and the background file-load worker loop are embedded as Lean
functions.  Members of the `host` module that the main module calls but whose
source is not part of this crate (`GenerateOptions::selected_groups`, the
`FileInfo` pipeline transitions) are modelled from the specification; every
such definition is marked in its doc comment.
-/

namespace FirefoxSessionUi

/-- The selection model, `host::GenerateOptions`.  `none` for a partition means
"all groups of that partition selected", `some []` means "none selected",
`some l` means "exactly the listed indexes".  The source stores the indexes in
a `Vec<u32>`; we embed it as a `List Nat`. -/
structure GenerateOptions where
  open_group_indexes : Option (List Nat)
  closed_group_indexes : Option (List Nat)
  deriving Repr, DecidableEq, Inhabited

/-- Resolve one partition's optional index list against the partition's group
count: `none` selects all groups, `some l` selects the listed indexes. -/
def resolveCount (sel : Option (List Nat)) (len : Nat) : Nat :=
  match sel with
  | none => len
  | some l => l.length

/-- Modelled from the spec: `GenerateOptions::selected_groups` (the `host`
module is not part of this crate's sources) — "count of groups currently
included, computed by resolving each `Optional<set>` against the
corresponding `AllTabGroups` partition length".  The partition lengths are
passed explicitly. -/
def selected_groups (g : GenerateOptions) (numOpen numClosed : Nat) : Nat :=
  resolveCount g.open_group_indexes numOpen +
    resolveCount g.closed_group_indexes numClosed

/-- The field of `GenerateOptions` addressed by `isOpen` (the `indexes`
reference of `change_selected_tab_group` after the optional swap). -/
def getTarget (g : GenerateOptions) (isOpen : Bool) : Option (List Nat) :=
  if isOpen then g.open_group_indexes else g.closed_group_indexes

/-- Write back the field of `GenerateOptions` addressed by `isOpen`. -/
def setTarget (g : GenerateOptions) (isOpen : Bool)
    (v : Option (List Nat)) : GenerateOptions :=
  if isOpen then { g with open_group_indexes := v }
  else { g with closed_group_indexes := v }

/-- `TabGroupList::change_selected_tab_group` from `src/main.rs`.  The numbers
of open and closed groups are passed through to the (spec-modelled)
`selected_groups` call.  Returns the `bool` of the source (whether a preview
regeneration is needed) together with the updated selection state. -/
def change_selected_tab_group (numOpen numClosed : Nat) (g : GenerateOptions)
    (index : Nat) (isOpen select : Bool) : Bool × GenerateOptions :=
  if select then
    -- `indexes.get_or_insert_with(Vec::new)`, `other.get_or_insert_with(..)`
    let indexes := (getTarget g isOpen).getD []
    let other := (getTarget g (!isOpen)).getD []
    let g' := setTarget (setTarget g isOpen (some indexes)) (!isOpen) (some other)
    if indexes.contains index then
      (false, g') -- already selected
    else
      (true, setTarget g' isOpen (some (indexes ++ [index]))) -- regen
  else
    match getTarget g isOpen with
    | some indexes =>
      let len := indexes.length
      -- `indexes.retain(|v| *v != index)`
      let indexes' := indexes.filter (fun v => v != index)
      let g' := setTarget g isOpen (some indexes')
      if indexes'.length != len then
        -- Something was removed => update preview:
        if selected_groups g' numOpen numClosed = 0 then
          -- Nothing selected => select all open windows:
          (true, { open_group_indexes := none,
                   closed_group_indexes := some (g'.closed_group_indexes.getD []) })
        else
          (true, g')
      else
        (false, g')
    | none => (false, g) -- nothing to deselect

/-- The selection state established by `Command::LoadNewInputData` before the
background load starts: all open windows selected (`None`), no closed windows
selected (`Some(empty)`). -/
def postLoadOptions : GenerateOptions :=
  { open_group_indexes := none, closed_group_indexes := some [] }

/-- Apply a sequence of selection operations `(index, isOpen, select)` through
`change_selected_tab_group`, keeping only the resulting state. -/
def applyOps (numOpen numClosed : Nat) (ops : List (Nat × Bool × Bool))
    (g : GenerateOptions) : GenerateOptions :=
  ops.foldl
    (fun acc op => (change_selected_tab_group numOpen numClosed acc op.1 op.2.1 op.2.2).2)
    g

/-- One tab group, `host::TabGroupInfo` (fields used by `src/main.rs`). -/
structure TabGroupInfo where
  name : String
  index : Nat
  deriving Repr, DecidableEq, Inhabited

/-- `host::AllTabGroups`: the two partitions of groups.  The source field
names are `open` and `closed`; `open` is a Lean keyword, so the fields are
`openGroups`/`closedGroups` here. -/
structure AllTabGroups where
  openGroups : List TabGroupInfo
  closedGroups : List TabGroupInfo
  deriving Repr, DecidableEq, Inhabited

/-- Modelled from the spec: the stage of a loaded file, `Raw(bytes) →
Decompressed(bytes) → Parsed(SessionTree)` (`host::FileData`, whose source is
not part of this crate).  Byte and session payloads are abstracted as token
lists. -/
inductive FileData where
  | compressed (bytes : List Nat)
  | uncompressed (bytes : List Nat)
  | parsed (session : List Nat)
  deriving Repr, DecidableEq

/-- Modelled from the spec: `host::FileInfo`, one user-selected input file:
its source path and the optional stage data (`None` until `load_data`
succeeds). -/
structure FileInfo where
  path : String
  data : Option FileData
  deriving Repr, DecidableEq

/-- `host::FileInfo::new`: a fresh record with no data loaded yet. -/
def FileInfo.new (path : String) : FileInfo :=
  { path := path, data := none }

/-- The status strings the application sets, as an enumeration; `Status.text`
renders the exact strings of `src/main.rs`.  Failure statuses carry the
formatted error payload. -/
inductive Status where
  | readingInputFile
  | decompressingData
  | parsingSessionData
  | generatingPreview
  | savingLinks
  | successfullyLoaded
  | successfullySaved
  | failedToRead (e : String)
  | failedToDecompress (e : String)
  | failedToParse (e : String)
  | failedToListWindows (e : String)
  | failedToGeneratePreview (e : String)
  | failedToSave (e : String)
  deriving Repr, DecidableEq

/-- The exact status string of `src/main.rs` for each `Status`. -/
def Status.text : Status → String
  | .readingInputFile => "Reading input file"
  | .decompressingData => "Decompressing data"
  | .parsingSessionData => "Parsing session data"
  | .generatingPreview => "Generating preview"
  | .savingLinks => "Saving links to file"
  | .successfullyLoaded => "Successfully loaded session data"
  | .successfullySaved => "Successfully saved links to a file"
  | .failedToRead e => "Failed to read file: " ++ e
  | .failedToDecompress e => "Failed to decompress data: " ++ e
  | .failedToParse e => "Failed to parse session data: " ++ e
  | .failedToListWindows e => "Failed to list windows in session: " ++ e
  | .failedToGeneratePreview e => "Failed to generate preview: " ++ e
  | .failedToSave e => "Failed to save links to file: " ++ e

/-- The four pipeline-stage statuses, in the order the load pipeline reports
them. -/
def stageStatuses : List Status :=
  [.readingInputFile, .decompressingData, .parsingSessionData, .generatingPreview]

/-- Whether a status is one of the four pipeline-stage statuses. -/
def isStage : Status → Bool
  | .readingInputFile | .decompressingData | .parsingSessionData | .generatingPreview => true
  | _ => false

/-- The `Command` message enum of `src/main.rs`.  The opaque `rfd::FileHandle`
payload of `SetInputPath` is dropped. -/
inductive Command where
  | setInputPath (path : String)
  | loadNewInputData
  | updateLoadedData (data : FileInfo)
  | parsedTabGroups (groups : AllTabGroups)
  | regeneratePreview
  | setPreview (preview : String)
  | changeTabGroupSelection (isOpen : Bool) (index : Nat) (select : Bool)
  | setSavePath (path : String)
  | setStatus (status : Status)
  | saveLinksToFile
  deriving Repr, DecidableEq

/-- `host::OutputOptions` (format abstracted to its machine name). -/
structure OutputOptions where
  format : String
  overwrite : Bool
  create_folder : Bool
  deriving Repr, DecidableEq

/-- A background task spawned by the `update` handler. -/
inductive Effect where
  | spawnLoadWorker (data : FileInfo)
  | spawnPreview (data : FileInfo) (options : GenerateOptions)
  | spawnSave (data : FileInfo) (path : String) (selected : GenerateOptions)
      (options : OutputOptions)
  deriving Repr, DecidableEq

/-- The mutable state of the `FirefoxSessionUtility` view of `src/main.rs`.
Text-input entities are flattened to their string values, the tab-group list
delegate to its `tab_groups`/`selected_tab_groups`/`selected_item` fields, and
the output-format dropdown to the selected format's machine name. -/
structure FirefoxSessionUtility where
  new_input : String
  loaded_input : String
  loaded_input_data : Option FileInfo
  preview : String
  tab_groups : AllTabGroups
  selected_tab_groups : GenerateOptions
  selected_item : Option (Nat × Nat)
  output_path : String
  create_folder : Bool
  overwrite : Bool
  output_format : Option String
  status : String
  deriving Repr, DecidableEq

/-- The `Command::RegeneratePreview` handler body (also run by
`Command::ParsedTabGroups`): bail out when no data is loaded, otherwise report
"Generating preview" and spawn the preview task. -/
def regeneratePreviewStep (st : FirefoxSessionUtility) :
    FirefoxSessionUtility × List Effect × List Status :=
  match st.loaded_input_data with
  | none => (st, [], [])
  | some d =>
    ({ st with status := Status.generatingPreview.text },
     [Effect.spawnPreview d st.selected_tab_groups],
     [Status.generatingPreview])

/-- The `Update<Command>` handler of `FirefoxSessionUtility` from
`src/main.rs`.  Returns the new state, the background tasks spawned, and the
status messages set (in order). -/
def update (st : FirefoxSessionUtility) (msg : Command) :
    FirefoxSessionUtility × List Effect × List Status :=
  match msg with
  | .setInputPath p => ({ st with new_input := p }, [], [])
  | .loadNewInputData =>
    let data := FileInfo.new st.new_input
    ({ st with
        loaded_input := st.new_input,
        loaded_input_data := some data,
        selected_tab_groups := postLoadOptions,
        status := Status.readingInputFile.text },
     [Effect.spawnLoadWorker data],
     [Status.readingInputFile])
  | .updateLoadedData d => ({ st with loaded_input_data := some d }, [], [])
  | .parsedTabGroups all => regeneratePreviewStep { st with tab_groups := all }
  | .regeneratePreview => regeneratePreviewStep st
  | .setPreview v =>
    ({ st with preview := v, status := Status.successfullyLoaded.text }, [],
     [Status.successfullyLoaded])
  | .changeTabGroupSelection _ _ _ => (st, [], []) -- TODO in source: update sidebar list
  | .setSavePath v => ({ st with output_path := v }, [], [])
  | .setStatus s => ({ st with status := s.text }, [], [s])
  | .saveLinksToFile =>
    match st.loaded_input_data with
    | none => (st, [], [])
    | some d =>
      match st.output_format with
      | none => (st, [], [])
      | some fmt =>
        ({ st with status := Status.savingLinks.text },
         [Effect.spawnSave d st.output_path st.selected_tab_groups
            { format := fmt, overwrite := st.overwrite, create_folder := st.create_folder }],
         [Status.savingLinks])

/-- One emission of the background load worker: either a `Command` sent back
to the view, or a fatal `unreachable!` abort. -/
inductive Emit where
  | msg (c : Command)
  | abort (reason : String)
  deriving Repr, DecidableEq

/-- The `loop { match &data.data { .. } }` of the `LoadNewInputData` worker in
`src/main.rs`.  The `host` pipeline transitions (`decompress_data`,
`parse_session_data`, `get_groups_from_session`), whose source is not part of
this crate, are oracles passed as function parameters; per the spec each
transition either fails (pipeline halts, error reported) or advances the
stage.  The loop runs at most three iterations; `fuel` bounds recursion and is
instantiated so that it never runs out. -/
def loadLoop (decomp parseSession : List Nat → Except String (List Nat))
    (getGroups : List Nat → Except String AllTabGroups) :
    Nat → FileInfo → List Emit
  | 0, _ => []
  | fuel + 1, fi =>
    match fi.data with
    | some (.compressed b) =>
      Emit.msg (.setStatus .decompressingData) ::
        match decomp b with
        | .error e => [Emit.msg (.setStatus (.failedToDecompress e))]
        | .ok u =>
          let fi' := { fi with data := some (.uncompressed u) }
          Emit.msg (.updateLoadedData fi') ::
            loadLoop decomp parseSession getGroups fuel fi'
    | some (.uncompressed b) =>
      Emit.msg (.setStatus .parsingSessionData) ::
        match parseSession b with
        | .error e => [Emit.msg (.setStatus (.failedToParse e))]
        | .ok t =>
          let fi' := { fi with data := some (.parsed t) }
          Emit.msg (.updateLoadedData fi') ::
            loadLoop decomp parseSession getGroups fuel fi'
    | some (.parsed t) =>
      [match getGroups t with
       | .ok all => Emit.msg (.parsedTabGroups all)
       | .error e => Emit.msg (.setStatus (.failedToListWindows e))]
    | none => [Emit.abort "we just loaded the data"]

/-- The whole background task spawned by `Command::LoadNewInputData`.
`loadResult` is the outcome of `data.load_data().await` (modelled from the
spec: on success the raw — possibly compressed — content is stored in
`data.data`, so the record's data is `some` afterwards); on failure the
worker reports the error and stops. -/
def loadWorker (decomp parseSession : List Nat → Except String (List Nat))
    (getGroups : List Nat → Except String AllTabGroups)
    (loadResult : Except String FileData) (fi : FileInfo) : List Emit :=
  match loadResult with
  | .error e => [Emit.msg (.setStatus (.failedToRead e))]
  | .ok d =>
    let fi' := { fi with data := some d }
    Emit.msg (.updateLoadedData fi') :: loadLoop decomp parseSession getGroups 3 fi'

/-- The payload of the last `UpdateLoadedData` message of a worker trace (the
stage the view's file record ends at). -/
def lastUpdated : List Emit → Option FileInfo
  | [] => none
  | e :: rest =>
    match lastUpdated rest with
    | some d => some d
    | none =>
      match e with
      | .msg (.updateLoadedData d) => some d
      | _ => none

/-- Process a worker trace on the view: apply `update` to each message in
emission order, collecting the status messages set.  An abort kills the
process, so nothing after it is handled. -/
def processEmits (st : FirefoxSessionUtility) : List Emit → FirefoxSessionUtility × List Status
  | [] => (st, [])
  | Emit.abort _ :: _ => (st, [])
  | Emit.msg c :: rest =>
    let r := update st c
    let rest' := processEmits r.1 rest
    (rest'.1, r.2.2 ++ rest'.2)

/-- The full status sequence a single `LoadNewInputData` command produces:
the status set synchronously by its handler, followed by the statuses set
while processing the background worker's messages in emission order. -/
def loadStatusTrace (st : FirefoxSessionUtility)
    (decomp parseSession : List Nat → Except String (List Nat))
    (getGroups : List Nat → Except String AllTabGroups)
    (loadResult : Except String FileData) : List Status :=
  (update st Command.loadNewInputData).2.2 ++
    (processEmits (update st Command.loadNewInputData).1
      (loadWorker decomp parseSession getGroups loadResult
        (FileInfo.new st.new_input))).2

/-! ## Helper lemmas -/

theorem closed_getD_eq_nil_of_selected_eq_zero (g : GenerateOptions) (nO nC : Nat)
    (h : selected_groups g nO nC = 0) : g.closed_group_indexes.getD [] = [] := by
  rcases g with ⟨o, c⟩
  cases c with
  | none => rfl
  | some c =>
    simp only [selected_groups, resolveCount, Nat.add_eq_zero] at h
    simp [List.length_eq_zero.mp h.2]

theorem length_filter_ne_lt (l : List Nat) (i : Nat) (h : i ∈ l) :
    (l.filter (fun v => v != i)).length < l.length :=
  List.length_filter_lt_length_iff_exists.mpr ⟨i, h, by simp⟩

theorem filter_ne_of_not_mem (l : List Nat) (i : Nat) (h : i ∉ l) :
    l.filter (fun v => v != i) = l :=
  List.filter_eq_self.mpr fun a ha => by
    simp only [bne_iff_ne, ne_eq, decide_eq_true_eq]
    exact fun hh => h (hh ▸ ha)

/-! ## Claims about the selection model -/

/-- **C1**: for every selection state, partition and index, deselecting
removes the index from the target partition's list if present; when that
removal makes `selected_groups()` reach zero, the state snaps back to
`open = None` (all open selected) and `closed = Some(empty)` (no closed
selected); otherwise the state is exactly the one with the index filtered out
of the target list. -/
theorem deselect_removes_and_falls_back (nO nC index : Nat) (g : GenerateOptions)
    (isOpen : Bool) (s : List Nat)
    (hs : getTarget g isOpen = some s) (hmem : index ∈ s) :
    change_selected_tab_group nO nC g index isOpen false =
      (true,
        if selected_groups (setTarget g isOpen (some (s.filter (fun v => v != index)))) nO nC = 0
        then { open_group_indexes := none, closed_group_indexes := some [] }
        else setTarget g isOpen (some (s.filter (fun v => v != index)))) ∧
    index ∉ s.filter (fun v => v != index) := by
  constructor
  · simp only [change_selected_tab_group, hs, Option.getD_some]
    rw [if_neg (by simp)]
    rw [if_pos (by simpa using hmem)]
    by_cases h0 :
        selected_groups (setTarget g isOpen (some (s.filter (fun v => v != index)))) nO nC = 0
    · rw [if_pos h0, if_pos h0,
        closed_getD_eq_nil_of_selected_eq_zero _ nO nC h0]
    · rw [if_neg h0, if_neg h0]
  · simp

/-- **C1** witness: deselecting the only selected open group (2 open groups,
none closed) removes it and snaps back to `⟨none, some []⟩`. -/
theorem deselect_removes_and_falls_back_witness :
    change_selected_tab_group 2 0 ⟨some [1], some []⟩ 1 true false =
      (true, ⟨none, some []⟩) ∧ (1 : Nat) ∉ [1].filter (fun v => v != 1) := by
  have h := deselect_removes_and_falls_back 2 0 1 ⟨some [1], some []⟩ true [1]
    (by rfl) (by decide)
  simpa [getTarget, setTarget, selected_groups, resolveCount] using h

/-- **C2** counterexample: selecting index 5 of the open partition in state
`open = Some([5])`, `closed = None` changes the selection state (the closed
partition is materialized from `None`, i.e. "all closed selected", to
`Some(empty)`, i.e. "no closed selected"), yet the operation returns `false`.
So "returns true if and only if this changed the selection state" is false. -/
theorem select_changed_signal_cex :
    change_selected_tab_group 1 1 ⟨some [5], none⟩ 5 true true =
      (false, ⟨some [5], some []⟩) ∧
    (⟨some [5], some []⟩ : GenerateOptions) ≠ ⟨some [5], none⟩ := by
  decide

/-- **C2** (amended): the select operation ensures the target partition's list
contains the index (materializing `Some(empty)` if it was `None`, then
appending), ensures the other partition's list is materialized, and returns
`true` if and only if the index was not already present in the target
partition's list (materializing the other partition alone is a state change
that is *not* reported). -/
theorem select_spec (nO nC index : Nat) (g : GenerateOptions) (isOpen : Bool) :
    (change_selected_tab_group nO nC g index isOpen true).1 =
      !((getTarget g isOpen).getD []).contains index ∧
    getTarget (change_selected_tab_group nO nC g index isOpen true).2 isOpen =
      some (if ((getTarget g isOpen).getD []).contains index
            then (getTarget g isOpen).getD []
            else (getTarget g isOpen).getD [] ++ [index]) ∧
    getTarget (change_selected_tab_group nO nC g index isOpen true).2 (!isOpen) =
      some ((getTarget g (!isOpen)).getD []) ∧
    index ∈ (getTarget (change_selected_tab_group nO nC g index isOpen true).2 isOpen).getD [] := by
  rcases g with ⟨o, c⟩
  cases isOpen
  · by_cases hc : ((c.getD []).contains index) = true
    · simp_all [change_selected_tab_group, getTarget, setTarget]
    · simp_all [change_selected_tab_group, getTarget, setTarget]
  · by_cases hc : ((o.getD []).contains index) = true
    · simp_all [change_selected_tab_group, getTarget, setTarget]
    · simp_all [change_selected_tab_group, getTarget, setTarget]

/-- **C4** counterexample: selecting index 0 of the open partition in state
`open = Some([0])`, `closed = None` — an index already contained in the target
partition's set — returns `false` but does *not* leave the state unchanged:
the closed partition is materialized from `None` to `Some(empty)`. -/
theorem change_idempotent_cex :
    change_selected_tab_group 1 1 ⟨some [0], none⟩ 0 true true =
      (false, ⟨some [0], some []⟩) ∧
    (⟨some [0], some []⟩ : GenerateOptions) ≠ ⟨some [0], none⟩ := by
  decide

/-- **C4** (amended): selecting an index already contained in the target
partition's list returns `false` and leaves the state unchanged except that
the other partition is materialized to `Some(empty)` if it was `None`;
deselecting an index not contained in the target partition's list (including
when that partition is `None`) returns `false` and leaves the state exactly
unchanged. -/
theorem change_idempotent (nO nC index : Nat) (g : GenerateOptions) (isOpen : Bool) :
    (((getTarget g isOpen).getD []).contains index = true →
      change_selected_tab_group nO nC g index isOpen true =
        (false, setTarget g (!isOpen) (some ((getTarget g (!isOpen)).getD [])))) ∧
    (((getTarget g isOpen).getD []).contains index = false →
      change_selected_tab_group nO nC g index isOpen false = (false, g)) := by
  rcases g with ⟨o, c⟩
  constructor
  · intro hc
    cases isOpen
    · cases c with
      | none => simp_all [getTarget]
      | some c => simp_all [change_selected_tab_group, getTarget, setTarget]
    · cases o with
      | none => simp_all [getTarget]
      | some o => simp_all [change_selected_tab_group, getTarget, setTarget]
  · intro hc
    cases isOpen
    · cases c with
      | none => simp [change_selected_tab_group, getTarget]
      | some c =>
        simp only [getTarget, Option.getD_some, if_false] at hc
        have hnm : index ∉ c := by simpa using hc
        simp [change_selected_tab_group, getTarget, setTarget,
          filter_ne_of_not_mem c index hnm]
    · cases o with
      | none => simp [change_selected_tab_group, getTarget]
      | some o =>
        simp only [getTarget, Option.getD_some, if_true] at hc
        have hnm : index ∉ o := by simpa using hc
        simp [change_selected_tab_group, getTarget, setTarget,
          filter_ne_of_not_mem o index hnm]

/-- **C4** witness: with both partitions materialized, selecting an
already-selected index and deselecting an unselected one both return `false`
and leave the state unchanged. -/
theorem change_idempotent_witness :
    change_selected_tab_group 1 1 ⟨some [3], some []⟩ 3 true true =
      (false, ⟨some [3], some []⟩) ∧
    change_selected_tab_group 1 1 ⟨some [3], some []⟩ 4 true false =
      (false, ⟨some [3], some []⟩) := by
  constructor
  · have h := (change_idempotent 1 1 3 ⟨some [3], some []⟩ true).1 (by decide)
    simpa [getTarget, setTarget] using h
  · exact (change_idempotent 1 1 4 ⟨some [3], some []⟩ true).2 (by decide)

theorem setTarget_getTarget (g : GenerateOptions) (isOpen : Bool) (s : List Nat)
    (h : getTarget g isOpen = some s) : setTarget g isOpen (some s) = g := by
  rcases g with ⟨o, c⟩
  cases isOpen <;> simp_all [getTarget, setTarget]

theorem selected_groups_pos_step (nO nC index : Nat) (g : GenerateOptions)
    (isOpen select : Bool) (hO : 0 < nO)
    (hg : 0 < selected_groups g nO nC) :
    0 < selected_groups (change_selected_tab_group nO nC g index isOpen select).2 nO nC := by
  cases select
  · -- deselect
    rcases hh : getTarget g isOpen with _ | s
    · simpa [change_selected_tab_group, hh] using hg
    · simp only [change_selected_tab_group, hh, Option.getD_some]
      rw [if_neg (by simp)]
      by_cases hrem : ((s.filter (fun v => v != index)).length != s.length) = true
      · rw [if_pos hrem]
        by_cases h0 :
            selected_groups (setTarget g isOpen (some (s.filter (fun v => v != index)))) nO nC = 0
        · rw [if_pos h0]
          simp only [selected_groups, resolveCount]
          omega
        · rw [if_neg h0]
          exact Nat.pos_of_ne_zero h0
      · rw [if_neg hrem]
        have hlen : (s.filter (fun v => v != index)).length = s.length := by
          by_contra hne
          exact hrem (by simpa [bne_iff_ne] using hne)
        rw [(List.filter_sublist s).eq_of_length hlen, setTarget_getTarget g isOpen s hh]
        exact hg
  · -- select: the target partition ends up containing the index
    rcases g with ⟨o, c⟩
    cases isOpen
    · by_cases hcon : index ∈ c.getD []
      · have hpos : 0 < (c.getD []).length :=
          List.length_pos.mpr (by rintro hnil; simp [hnil] at hcon)
        simp [change_selected_tab_group, getTarget, setTarget, selected_groups,
          resolveCount, hcon]
        omega
      · simp [change_selected_tab_group, getTarget, setTarget, selected_groups,
          resolveCount, hcon]
    · by_cases hcon : index ∈ o.getD []
      · have hpos : 0 < (o.getD []).length :=
          List.length_pos.mpr (by rintro hnil; simp [hnil] at hcon)
        simp [change_selected_tab_group, getTarget, setTarget, selected_groups,
          resolveCount, hcon]
        omega
      · simp [change_selected_tab_group, getTarget, setTarget, selected_groups,
          resolveCount, hcon]

/-- **C3**: starting from the post-load state (`open = None`,
`closed = Some(empty)`), any sequence of select/deselect operations keeps
`selected_groups()` strictly positive whenever the open partition has at
least one group — the two partitions never end up selecting zero groups. -/
theorem reachable_selected_groups_pos (nO nC : Nat) (ops : List (Nat × Bool × Bool))
    (hO : 0 < nO) :
    0 < selected_groups (applyOps nO nC ops postLoadOptions) nO nC := by
  suffices h : ∀ g : GenerateOptions, 0 < selected_groups g nO nC →
      0 < selected_groups (applyOps nO nC ops g) nO nC by
    refine h _ ?_
    simpa [postLoadOptions, selected_groups, resolveCount] using hO
  induction ops with
  | nil => intro g hg; simpa [applyOps] using hg
  | cons op rest ih =>
    intro g hg
    have hstep := selected_groups_pos_step nO nC op.1 g op.2.1 op.2.2 hO hg
    simpa [applyOps] using ih _ hstep

/-- **C3** witness: with one open group and no closed groups, selecting open
group 0 from the post-load state leaves a positive selection count. -/
theorem reachable_selected_groups_pos_witness :
    0 < selected_groups (applyOps 1 0 [(0, true, true)] postLoadOptions) 1 0 :=
  reachable_selected_groups_pos 1 0 [(0, true, true)] (by decide)

/-- **C5** counterexample: in the state `open = None`, `closed = None` (open
index 0 is not explicitly selected), with one open and one closed group,
`selected_groups()` is 2 before selecting open group 0, but the
select-then-deselect round trip ends at `⟨none, some []⟩`, whose
`selected_groups()` is 1. -/
theorem roundtrip_selected_groups_cex :
    (⟨none, none⟩ : GenerateOptions).open_group_indexes = none ∧
    selected_groups
        (change_selected_tab_group 1 1
          (change_selected_tab_group 1 1 ⟨none, none⟩ 0 true true).2 0 true false).2 1 1 ≠
      selected_groups ⟨none, none⟩ 1 1 := by
  decide

/-- **C5** (amended): restricted to states of the shape every reachable state
has — closed partition materialized, closed empty whenever open is `None`,
and closed non-empty whenever open is `Some(empty)` — selecting a
not-explicitly-selected open index and then deselecting it returns
`selected_groups()` to its pre-selection value. -/
theorem roundtrip_selected_groups (nO nC index : Nat) (g : GenerateOptions) (c : List Nat)
    (hc : g.closed_group_indexes = some c)
    (hnone : g.open_group_indexes = none → c = [])
    (hempty : g.open_group_indexes = some [] → c ≠ [])
    (hsel : ∀ s, g.open_group_indexes = some s → index ∉ s) :
    selected_groups
        (change_selected_tab_group nO nC
          (change_selected_tab_group nO nC g index true true).2 index true false).2 nO nC =
      selected_groups g nO nC := by
  rcases g with ⟨o, c'⟩
  obtain rfl : c' = some c := hc
  cases o with
  | none =>
    obtain rfl : c = [] := hnone rfl
    simp [change_selected_tab_group, getTarget, setTarget, selected_groups, resolveCount]
  | some s =>
    have hns : index ∉ s := hsel s rfl
    have hfil : (s ++ [index]).filter (fun v => v != index) = s := by
      rw [List.filter_append, filter_ne_of_not_mem s index hns]
      simp
    by_cases hs0 : s = []
    · subst hs0
      have hcne : c ≠ [] := hempty rfl
      have hcpos : 0 < c.length := List.length_pos.mpr hcne
      simp [change_selected_tab_group, getTarget, setTarget, selected_groups,
        resolveCount, hns, hfil, hcne]
    · simp [change_selected_tab_group, getTarget, setTarget, selected_groups,
        resolveCount, hns, hfil, hs0]

/-- **C5** witness: in the reachable-shaped state `open = Some([1])`,
`closed = Some([0])`, selecting open index 2 then deselecting it restores
`selected_groups()`. -/
theorem roundtrip_selected_groups_witness :
    selected_groups
        (change_selected_tab_group 5 7
          (change_selected_tab_group 5 7 ⟨some [1], some [0]⟩ 2 true true).2 2 true false).2 5 7 =
      selected_groups ⟨some [1], some [0]⟩ 5 7 :=
  roundtrip_selected_groups 5 7 2 ⟨some [1], some [0]⟩ [0] rfl
    (by intro h; cases h) (by intro h; simp at h) (by intro s hs; cases hs; decide)

/-! ## Claims about the load pipeline and the message handler -/

/-- **C6**: for every single file-load operation (any oracle outcomes for the
host transitions), the pipeline-stage statuses are reported in the fixed
order "Reading input file", "Decompressing data" (only while the data is
compressed), "Parsing session data" (only while uncompressed), "Generating
preview" (triggered by the delivery of the extracted tab groups) — the stage
statuses of the run form a sublist, in order, of that canonical sequence; on
the fully successful compressed-file run the sequence is exactly the
canonical one. -/
theorem load_status_sequence (st : FirefoxSessionUtility)
    (decomp parseSession : List Nat → Except String (List Nat))
    (getGroups : List Nat → Except String AllTabGroups)
    (loadResult : Except String FileData) :
    List.Sublist
      ((loadStatusTrace st decomp parseSession getGroups loadResult).filter isStage)
      stageStatuses ∧
    (∀ b u t all, loadResult = Except.ok (FileData.compressed b) →
      decomp b = Except.ok u → parseSession u = Except.ok t →
      getGroups t = Except.ok all →
      (loadStatusTrace st decomp parseSession getGroups loadResult).map Status.text =
        ["Reading input file", "Decompressing data", "Parsing session data",
         "Generating preview"]) := by
  constructor
  · rcases loadResult with e | d
    · simp [loadStatusTrace, loadWorker, processEmits, update, isStage]
      decide
    · rcases d with b | b | t
      · rcases hdec : decomp b with e | u
        · simp [loadStatusTrace, loadWorker, loadLoop, hdec, processEmits, update,
            isStage]
          decide
        · rcases hpar : parseSession u with e | t
          · simp [loadStatusTrace, loadWorker, loadLoop, hdec, hpar, processEmits,
              update, isStage]
            decide
          · rcases hg : getGroups t with e | all
            · simp [loadStatusTrace, loadWorker, loadLoop, hdec, hpar, hg,
                processEmits, update, regeneratePreviewStep, isStage]
              decide
            · simp [loadStatusTrace, loadWorker, loadLoop, hdec, hpar, hg,
                processEmits, update, regeneratePreviewStep, isStage]
              decide
      · rcases hpar : parseSession b with e | t
        · simp [loadStatusTrace, loadWorker, loadLoop, hpar, processEmits, update,
            isStage]
          decide
        · rcases hg : getGroups t with e | all
          · simp [loadStatusTrace, loadWorker, loadLoop, hpar, hg, processEmits,
              update, regeneratePreviewStep, isStage]
            decide
          · simp [loadStatusTrace, loadWorker, loadLoop, hpar, hg, processEmits,
              update, regeneratePreviewStep, isStage]
            decide
      · rcases hg : getGroups t with e | all
        · simp [loadStatusTrace, loadWorker, loadLoop, hg, processEmits, update,
            regeneratePreviewStep, isStage]
          decide
        · simp [loadStatusTrace, loadWorker, loadLoop, hg, processEmits, update,
            regeneratePreviewStep, isStage]
          decide
  · intro b u t all hload hdec hpar hg
    subst hload
    simp [loadStatusTrace, loadWorker, loadLoop, hdec, hpar, hg, processEmits,
      update, regeneratePreviewStep, Status.text]

/-- **C6** witness: a concrete fully successful run (all oracles succeed on a
compressed file) satisfies both the sublist property and the exact canonical
status sequence. -/
theorem load_status_sequence_witness :
    List.Sublist
      ((loadStatusTrace
          { new_input := "f", loaded_input := "", loaded_input_data := none,
            preview := "", tab_groups := ⟨[], []⟩,
            selected_tab_groups := ⟨none, none⟩, selected_item := none,
            output_path := "", create_folder := false, overwrite := false,
            output_format := none, status := "" }
          (fun _ => Except.ok [1]) (fun _ => Except.ok [2])
          (fun _ => Except.ok ⟨[], []⟩)
          (Except.ok (FileData.compressed [0]))).filter isStage)
      stageStatuses ∧
    (loadStatusTrace
        { new_input := "f", loaded_input := "", loaded_input_data := none,
          preview := "", tab_groups := ⟨[], []⟩,
          selected_tab_groups := ⟨none, none⟩, selected_item := none,
          output_path := "", create_folder := false, overwrite := false,
          output_format := none, status := "" }
        (fun _ => Except.ok [1]) (fun _ => Except.ok [2])
        (fun _ => Except.ok ⟨[], []⟩)
        (Except.ok (FileData.compressed [0]))).map Status.text =
      ["Reading input file", "Decompressing data", "Parsing session data",
       "Generating preview"] := by
  have h := load_status_sequence
    { new_input := "f", loaded_input := "", loaded_input_data := none,
      preview := "", tab_groups := ⟨[], []⟩,
      selected_tab_groups := ⟨none, none⟩, selected_item := none,
      output_path := "", create_folder := false, overwrite := false,
      output_format := none, status := "" }
    (fun _ => Except.ok [1]) (fun _ => Except.ok [2])
    (fun _ => Except.ok ⟨[], []⟩)
    (Except.ok (FileData.compressed [0]))
  exact ⟨h.1, h.2 [0] [1] [2] ⟨[], []⟩ rfl rfl rfl rfl⟩

/-- **C7**: whenever a pipeline transition fails, the worker reports the
error status and stops: the trace ends at the error report (no later stage
status or transition), and the last `UpdateLoadedData` message carries the
record at its last successfully reached stage. -/
theorem load_halts_on_error (decomp parseSession : List Nat → Except String (List Nat))
    (getGroups : List Nat → Except String AllTabGroups) (fi : FileInfo) (e : String) :
    loadWorker decomp parseSession getGroups (Except.error e) fi =
      [Emit.msg (.setStatus (.failedToRead e))] ∧
    (∀ b, decomp b = Except.error e →
      loadWorker decomp parseSession getGroups (Except.ok (.compressed b)) fi =
        [Emit.msg (.updateLoadedData { fi with data := some (.compressed b) }),
         Emit.msg (.setStatus .decompressingData),
         Emit.msg (.setStatus (.failedToDecompress e))] ∧
      lastUpdated (loadWorker decomp parseSession getGroups (Except.ok (.compressed b)) fi) =
        some { fi with data := some (.compressed b) }) ∧
    (∀ b u, decomp b = Except.ok u → parseSession u = Except.error e →
      loadWorker decomp parseSession getGroups (Except.ok (.compressed b)) fi =
        [Emit.msg (.updateLoadedData { fi with data := some (.compressed b) }),
         Emit.msg (.setStatus .decompressingData),
         Emit.msg (.updateLoadedData { fi with data := some (.uncompressed u) }),
         Emit.msg (.setStatus .parsingSessionData),
         Emit.msg (.setStatus (.failedToParse e))] ∧
      lastUpdated (loadWorker decomp parseSession getGroups (Except.ok (.compressed b)) fi) =
        some { fi with data := some (.uncompressed u) }) := by
  refine ⟨rfl, ?_, ?_⟩
  · intro b hdec
    constructor
    · simp [loadWorker, loadLoop, hdec]
    · simp [loadWorker, loadLoop, hdec, lastUpdated]
  · intro b u hdec hpar
    constructor
    · simp [loadWorker, loadLoop, hdec, hpar]
    · simp [loadWorker, loadLoop, hdec, hpar, lastUpdated]

/-- **C7** witness: a concrete decompression failure produces exactly the
halted trace with the record left at the compressed stage. -/
theorem load_halts_on_error_witness :
    loadWorker (fun _ => Except.error "bad") (fun _ => Except.ok [])
        (fun _ => Except.ok ⟨[], []⟩) (Except.ok (FileData.compressed [7]))
        (FileInfo.new "p") =
      [Emit.msg (.updateLoadedData ⟨"p", some (.compressed [7])⟩),
       Emit.msg (.setStatus .decompressingData),
       Emit.msg (.setStatus (.failedToDecompress "bad"))] ∧
    lastUpdated
        (loadWorker (fun _ => Except.error "bad") (fun _ => Except.ok [])
          (fun _ => Except.ok ⟨[], []⟩) (Except.ok (FileData.compressed [7]))
          (FileInfo.new "p")) =
      some ⟨"p", some (.compressed [7])⟩ :=
  (load_halts_on_error (fun _ => Except.error "bad") (fun _ => Except.ok [])
    (fun _ => Except.ok ⟨[], []⟩) (FileInfo.new "p") "bad").2.1 [7] rfl

theorem loadLoop_abort (decomp parseSession : List Nat → Except String (List Nat))
    (getGroups : List Nat → Except String AllTabGroups) :
    ∀ (fuel : Nat) (fi : FileInfo) (r : String),
      Emit.abort r ∈ loadLoop decomp parseSession getGroups fuel fi → fi.data = none := by
  intro fuel
  induction fuel with
  | zero => intro fi r h; simp [loadLoop] at h
  | succ n ih =>
    intro fi r h
    rcases hd : fi.data with _ | d
    · rfl
    · exfalso
      rcases d with b | b | t
      · simp only [loadLoop, hd] at h
        rcases hdec : decomp b with e | u <;> rw [hdec] at h
        · simp at h
        · simp at h
          have := ih _ r h
          simp at this
      · simp only [loadLoop, hd] at h
        rcases hpar : parseSession b with e | t <;> rw [hpar] at h
        · simp at h
        · simp at h
          have := ih _ r h
          simp at this
      · simp only [loadLoop, hd] at h
        rcases hg : getGroups t with e | all <;> rw [hg] at h <;> simp at h

/-- **C8**: under the precondition that `load_data` returned `Ok`, the
`unreachable!("we just loaded the data")` arm is never executed — no abort
appears in the worker trace; and it is the only abort path of the driver
loop: an abort in the loop can only arise from entering it with no data
present. -/
theorem load_worker_no_abort (decomp parseSession : List Nat → Except String (List Nat))
    (getGroups : List Nat → Except String AllTabGroups)
    (d : FileData) (fi : FileInfo) (loadResult : Except String FileData)
    (hok : loadResult = Except.ok d) (r : String) :
    Emit.abort r ∉ loadWorker decomp parseSession getGroups loadResult fi ∧
    (∀ (fuel : Nat) (fi' : FileInfo),
      Emit.abort r ∈ loadLoop decomp parseSession getGroups fuel fi' →
        fi'.data = none) := by
  subst hok
  constructor
  · intro h
    simp [loadWorker] at h
    have := loadLoop_abort decomp parseSession getGroups 3 _ r h
    simp at this
  · exact fun fuel fi' h => loadLoop_abort decomp parseSession getGroups fuel fi' r h

/-- **C8** witness: no abort in the concrete successful worker run, and the
abort-only-from-`None` property instantiated. -/
theorem load_worker_no_abort_witness :
    Emit.abort "boom" ∉ loadWorker (fun _ => Except.ok []) (fun _ => Except.ok [])
        (fun _ => Except.ok ⟨[], []⟩) (Except.ok (FileData.compressed []))
        (FileInfo.new "p") ∧
    (∀ (fuel : Nat) (fi' : FileInfo),
      Emit.abort "boom" ∈ loadLoop (fun _ => Except.ok []) (fun _ => Except.ok [])
          (fun _ => Except.ok ⟨[], []⟩) fuel fi' →
        fi'.data = none) :=
  load_worker_no_abort (fun _ => Except.ok []) (fun _ => Except.ok [])
    (fun _ => Except.ok ⟨[], []⟩) (FileData.compressed []) (FileInfo.new "p")
    (Except.ok (FileData.compressed [])) rfl "boom"

/-- **C9**: handling `Command::LoadNewInputData` always resets the selection
model — afterwards the open partition is `None` (all open selected) and the
closed partition is `Some(empty)` (no closed selected), whatever the prior
state — and the background load is the (only) task spawned, on the fresh
record. -/
theorem load_resets_selection (st : FirefoxSessionUtility) :
    (update st Command.loadNewInputData).1.selected_tab_groups = postLoadOptions ∧
    (update st Command.loadNewInputData).2.1 =
      [Effect.spawnLoadWorker (FileInfo.new st.new_input)] :=
  ⟨rfl, rfl⟩

/-- **C10**: handling `Command::ChangeTabGroupSelection` is a no-op: the
state is unchanged (every field), no task is spawned and no status is set,
for every payload. -/
theorem changeTabGroupSelection_noop (st : FirefoxSessionUtility)
    (isOpen : Bool) (index : Nat) (select : Bool) :
    update st (Command.changeTabGroupSelection isOpen index select) = (st, [], []) :=
  rfl

end FirefoxSessionUi
